import Mathlib

/-
Verification of the span-attribute truncator (src/tracing.py,
CloudTraceLoggingSpanExporter._process_large_attributes) and of the
research-agent lookup tools (src/research_agent/agent.py, research_topic
and analyze_trends).

Python strings are modelled as `List Char` (one entry per Unicode code
point, exactly as Python indexes and slices strings) on the truncator
side, and as Lean `String` on the agent side.  `len(s.encode())` is
modelled by `pyEncodeLen` (the UTF-8 byte count), and
`len(json.dumps(x).encode())` by `jsonAttrsSize` (Python's json.dumps
with its defaults: ensure_ascii=True, separators (", ", ": ")).
-/

set_option maxRecDepth 16384

namespace Demo

/-- A span attribute value as it appears in the span dictionary after
json round-tripping: a string, a number, or a boolean.  Numbers are
modelled as integers; the truncator never inspects or alters them. -/
inductive AttrVal where
  | str (s : List Char)
  | num (n : Int)
  | boolean (b : Bool)
deriving DecidableEq

/-- Number of bytes of the UTF-8 encoding of one code point: models the
per-character contribution to Python `len(value.encode())`. -/
def utf8CharSize (c : Char) : Nat :=
  if c.toNat < 0x80 then 1
  else if c.toNat < 0x800 then 2
  else if c.toNat < 0x10000 then 3
  else 4

/-- Models Python `len(value.encode())`: the UTF-8 byte length of a string. -/
def pyEncodeLen (s : List Char) : Nat :=
  (s.map utf8CharSize).sum

/-- Number of output bytes json.dumps (ensure_ascii=True) emits for one
character inside a string literal: 2 for the short escapes, 6 for a
generic escaped BMP character, 12 for a surrogate pair, 1 for a plain
printable ASCII character. -/
def jsonEscLen (c : Char) : Nat :=
  if c = Char.ofNat 34 ∨ c = Char.ofNat 92 then 2
  else if c.toNat < 0x20 then
    (if c = Char.ofNat 8 ∨ c = Char.ofNat 9 ∨ c = Char.ofNat 10 ∨ c = Char.ofNat 12 ∨ c = Char.ofNat 13 then 2 else 6)
  else if c.toNat ≤ 0x7e then 1
  else if c.toNat < 0x10000 then 6
  else 12

/-- Total escaped length of the characters of a string under json.dumps. -/
def escSum (s : List Char) : Nat :=
  (s.map jsonEscLen).sum

/-- Serialized byte size of one string under json.dumps: two quotes plus
the escaped characters (the output is pure ASCII, so bytes = chars). -/
def jsonStrSize (s : List Char) : Nat :=
  2 + escSum s

/-- Serialized byte size of one attribute value under json.dumps. -/
def jsonValSize : AttrVal → Nat
  | AttrVal.str s => jsonStrSize s
  | AttrVal.num n => (toString n).length
  | AttrVal.boolean true => 4
  | AttrVal.boolean false => 5

/-- Serialized byte size of one `"key": value` entry (the 2 is the
colon-space separator). -/
def entrySize (kv : List Char × AttrVal) : Nat :=
  jsonStrSize kv.1 + 2 + jsonValSize kv.2

/-- Models `len(json.dumps(attributes).encode())` for the attributes
mapping: braces, entries, and one ", " separator before every entry but
the first. -/
def jsonAttrsSize : List (List Char × AttrVal) → Nat
  | [] => 2
  | kv :: rest => 2 + entrySize kv + (rest.map (fun e => 2 + entrySize e)).sum

/-- The 200 KB total limit from src/tracing.py (`max_size = 200 * 1024`). -/
def max_size : Nat := 200 * 1024

/-- The literal suffix `"... [truncated]"` appended to truncated values. -/
def suffixChars : List Char := String.toList "... [truncated]"

/-- One iteration of the truncation loop body in
`_process_large_attributes`: a string value whose encoded length exceeds
10000 bytes is replaced by `value[:9900] + "... [truncated]"` (Python
slicing: the first 9900 characters); every other value passes through. -/
def truncOne : AttrVal → AttrVal
  | AttrVal.str s =>
      if pyEncodeLen s > 10000 then AttrVal.str (s.take 9900 ++ suffixChars)
      else AttrVal.str s
  | v => v

/-- The `for key, value in attributes.items()` loop: rebuilds the mapping
key by key, truncating oversized string values. -/
def truncateLoop : List (List Char × AttrVal) → List (List Char × AttrVal)
  | [] => []
  | (k, v) :: rest => (k, truncOne v) :: truncateLoop rest

/-- The attributes-level behaviour of `_process_large_attributes`: if the
serialized mapping exceeds `max_size`, truncate oversized string values;
otherwise leave the mapping untouched. -/
def processAttributes (attrs : List (List Char × AttrVal)) : List (List Char × AttrVal) :=
  if jsonAttrsSize attrs > max_size then truncateLoop attrs else attrs

/-- A value stored in the span dictionary: either the nested attributes
mapping (the `"attributes"` entry) or a primitive value. -/
inductive SpanVal where
  | attrsVal (a : List (List Char × AttrVal))
  | primVal (v : AttrVal)
deriving DecidableEq

/-- The key `"attributes"` of the span dictionary. -/
def attrsKey : List Char := String.toList "attributes"

/-- Python dict lookup (`d[k]` / `k in d`), on the insertion-ordered
association-list model of a dict. -/
def dictGet : List (List Char × SpanVal) → List Char → Option SpanVal
  | [], _ => none
  | (k, v) :: rest, key => if key = k then some v else dictGet rest key

/-- Whether a key is present in the dict. -/
def dictContains (d : List (List Char × SpanVal)) (key : List Char) : Bool :=
  d.any (fun kv => kv.1 == key)

/-- Python dict assignment `d[key] = v`: an existing key keeps its
position and gets the new value; a fresh key is appended at the end. -/
def dictSet (d : List (List Char × SpanVal)) (key : List Char) (v : SpanVal) :
    List (List Char × SpanVal) :=
  if dictContains d key then
    d.map (fun kv => if kv.1 = key then (key, v) else kv)
  else d ++ [(key, v)]

/-- `_process_large_attributes` on the whole span dictionary: reads
`span_dict["attributes"]` (a `KeyError` / attribute error, modelled as
`none`, if the entry is missing or not a mapping), reassigns it to the
truncated mapping when the serialized size exceeds `max_size`, and
returns the span dictionary. -/
def processSpan (sd : List (List Char × SpanVal)) : Option (List (List Char × SpanVal)) :=
  match dictGet sd attrsKey with
  | some (SpanVal.attrsVal attributes) =>
      if jsonAttrsSize attributes > max_size then
        some (dictSet sd attrsKey (SpanVal.attrsVal (truncateLoop attributes)))
      else some sd
  | _ => none

/-- ASCII model of Python `str.lower` (the knowledge-base keys are ASCII). -/
def pyLowerChar (c : Char) : Char :=
  if Char.ofNat 65 ≤ c ∧ c ≤ Char.ofNat 90 then Char.ofNat (c.toNat + 32) else c

/-- Whitespace stripped by Python `str.strip`. -/
def isPySpace (c : Char) : Bool :=
  c == Char.ofNat 32 || c == Char.ofNat 9 || c == Char.ofNat 10 ||
  c == Char.ofNat 13 || c == Char.ofNat 11 || c == Char.ofNat 12

/-- Model of Python `str.strip`: drop whitespace at both ends. -/
def pyStripList (l : List Char) : List Char :=
  ((l.dropWhile isPySpace).reverse.dropWhile isPySpace).reverse

/-- Model of `s.lower().strip()` as used on topics, focus areas, domains. -/
def pyNormalize (s : String) : String :=
  String.mk (pyStripList (s.toList.map pyLowerChar))

/-- Lookup in a literal Python dict (`key in d` / `d[key]`). -/
def lookupTable {α : Type} : List (String × α) → String → Option α
  | [], _ => none
  | (k, v) :: rest, key => if key = k then some v else lookupTable rest key

/-- An apostrophe, as used inside the error-message literals. -/
def sq : String := (Char.ofNat 39).toString

/-- The `research` sub-record of research_topic's success result. -/
structure ResearchRecord where
  topic : String
  focus_area : String
  insights : String
  methodology : String
  last_updated : String
deriving DecidableEq

/-- The result of research_topic: a dict with `"status": "success"` and a
`"research"` record, or `"status": "error"` with an `"error_message"`. -/
inductive ResearchResult where
  | success (research : ResearchRecord)
  | error (error_message : String)
deriving DecidableEq

/-- The `"artificial intelligence"` entry of the knowledge base. -/
def ai_data : List (String × String) :=
  [("general", "AI is a rapidly evolving field focused on creating machines that can perform tasks typically requiring human intelligence. Key areas include machine learning, natural language processing, computer vision, and robotics. Current trends show significant advancement in large language models, generative AI, and autonomous systems."),
   ("technical", "AI encompasses various approaches including supervised/unsupervised learning, neural networks, deep learning architectures (CNNs, RNNs, Transformers), reinforcement learning, and symbolic AI. Modern architectures like attention mechanisms and transformer models have revolutionized NLP and multimodal applications."),
   ("business", "AI is transforming industries through automation, predictive analytics, personalized experiences, and decision support systems. Companies are investing heavily in AI infrastructure, talent acquisition, and ethical AI practices. Key challenges include ROI measurement, data quality, and integration complexity."),
   ("social", "AI raises important questions about job displacement, privacy, bias in algorithms, and the future of human-machine collaboration. Discussions focus on AI governance, ethical frameworks, transparency, and ensuring AI benefits society broadly.")]

/-- The `"climate change"` entry of the knowledge base. -/
def climate_data : List (String × String) :=
  [("general", "Climate change refers to long-term shifts in global temperatures and weather patterns, primarily driven by human activities since the Industrial Revolution. Key indicators include rising global temperatures, melting ice caps, sea level rise, and extreme weather events."),
   ("technical", "Climate science involves understanding greenhouse gas emissions (CO2, CH4, N2O), feedback loops, climate modeling, and mitigation technologies. Solutions include renewable energy systems, carbon capture, energy efficiency, and sustainable transportation technologies."),
   ("business", "Climate change presents both risks and opportunities for businesses. Companies are adopting sustainability practices, ESG reporting, carbon accounting, and climate risk assessments. Green finance and sustainable business models are becoming competitive advantages."),
   ("social", "Climate change disproportionately affects vulnerable populations and raises questions of climate justice, adaptation strategies, and international cooperation. Social movements and policy advocacy play crucial roles in driving climate action.")]

/-- The `"blockchain"` entry of the knowledge base. -/
def blockchain_data : List (String × String) :=
  [("general", "Blockchain is a distributed ledger technology that maintains a continuously growing list of records, linked and secured using cryptography. It enables decentralized, transparent, and immutable record-keeping without requiring a central authority."),
   ("technical", "Blockchain systems use cryptographic hashing, consensus mechanisms (Proof of Work, Proof of Stake), smart contracts, and distributed networks. Key technical challenges include scalability, energy consumption, and interoperability between different blockchain networks."),
   ("business", "Blockchain applications span cryptocurrency, supply chain management, digital identity, decentralized finance (DeFi), and non-fungible tokens (NFTs). Businesses are exploring blockchain for transparency, reducing intermediaries, and creating new business models."),
   ("social", "Blockchain raises questions about financial inclusion, regulatory frameworks, energy consumption, and the decentralization of traditional institutions. It has potential to increase transparency and reduce corruption in various sectors.")]

/-- The knowledge base literal of research_topic. -/
def knowledge_base : List (String × List (String × String)) :=
  [("artificial intelligence", ai_data),
   ("climate change", climate_data),
   ("blockchain", blockchain_data)]

/-- The error message research_topic produces for an unknown topic. -/
def topicErrMsg (topic : String) : String :=
  "Sorry, I don" ++ sq ++ "t have comprehensive research data for " ++ sq ++ topic ++ sq ++
  ". Available topics include: artificial intelligence, climate change, blockchain."

/-- research_topic from src/research_agent/agent.py: normalize both
inputs, look the topic up, pick the focus entry or fall back to
`"general"`, and echo the original (non-normalized) inputs in the
success record. -/
def research_topic (topic : String) (focus_area : String) : ResearchResult :=
  let topic_normalized := pyNormalize topic
  let focus_normalized := pyNormalize focus_area
  match lookupTable knowledge_base topic_normalized with
  | some topic_data =>
      let research_content :=
        match lookupTable topic_data focus_normalized with
        | some c => c
        | none => (lookupTable topic_data "general").getD "Limited information available for this focus area."
      ResearchResult.success
        { topic := topic
          focus_area := focus_area
          insights := research_content
          methodology := "Analysis based on existing knowledge base"
          last_updated := "Knowledge current as of training data" }
  | none => ResearchResult.error (topicErrMsg topic)

/-- The per-domain trend structure of analyze_trends. -/
structure TrendData where
  key_trends : List String
  emerging_patterns : String
  future_outlook : String
deriving DecidableEq

/-- The result of analyze_trends: a dict with `"status": "success"`,
`"analysis"`, the echoed `"domain"` and `"analysis_date"`, or
`"status": "error"` with an `"error_message"`. -/
inductive TrendsResult where
  | success (analysis : TrendData) (domain : String) (analysis_date : String)
  | error (error_message : String)
deriving DecidableEq

/-- The trend-analysis table literal of analyze_trends. -/
def trend_analysis : List (String × TrendData) :=
  [("technology",
    { key_trends :=
        ["Generative AI and Large Language Models",
         "Edge Computing and IoT Integration",
         "Quantum Computing Development",
         "Sustainable Technology Solutions",
         "Extended Reality (AR/VR/MR)"]
      emerging_patterns := "Technology is moving toward more distributed, intelligent, and sustainable solutions. AI integration is becoming ubiquitous across all tech sectors."
      future_outlook := "Continued convergence of AI, cloud computing, and sustainable practices will shape the next decade of technological development." }),
   ("business",
    { key_trends :=
        ["Digital Transformation Acceleration",
         "Remote and Hybrid Work Models",
         "ESG and Sustainability Focus",
         "Customer Experience Personalization",
         "Data-Driven Decision Making"]
      emerging_patterns := "Businesses are prioritizing agility, sustainability, and customer-centricity while leveraging technology for competitive advantage."
      future_outlook := "Organizations that successfully balance human-centered approaches with technological innovation will lead market transformations." }),
   ("science",
    { key_trends :=
        ["Interdisciplinary Research Collaboration",
         "AI-Assisted Scientific Discovery",
         "Open Science and Data Sharing",
         "Climate Science and Environmental Research",
         "Precision Medicine and Biotechnology"]
      emerging_patterns := "Scientific research is becoming more collaborative, data-intensive, and focused on addressing global challenges."
      future_outlook := "Integration of AI tools with traditional scientific methods will accelerate discovery and innovation across all fields." })]

/-- The error message analyze_trends produces for an unknown domain. -/
def trendErrMsg (domain : String) : String :=
  "Sorry, trend analysis not available for " ++ sq ++ domain ++ sq ++
  ". Available domains: technology, business, science."

/-- analyze_trends from src/research_agent/agent.py. -/
def analyze_trends (domain : String) : TrendsResult :=
  let domain_normalized := pyNormalize domain
  match lookupTable trend_analysis domain_normalized with
  | some td => TrendsResult.success td domain "Based on current knowledge patterns"
  | none => TrendsResult.error (trendErrMsg domain)

/-- The euro sign, a three-byte UTF-8 character. -/
def euro : Char := Char.ofNat 0x20AC

/-- A 210000-character key: keys are never truncated, so this keeps the
serialized mapping above `max_size` on every pass. -/
def bigKey : List Char := List.replicate 210000 (Char.ofNat 107)

/-- A 4000-character, 12000-byte string of euro signs: over the 10000
byte per-attribute limit but under 9900 characters. -/
def euroStr : List Char := List.replicate 4000 euro

/-- The concrete oversized attributes mapping used as the
counterexample input for several truncator claims. -/
def dA : List (List Char × AttrVal) :=
  [(bigKey, AttrVal.boolean true), ([Char.ofNat 101], AttrVal.str euroStr)]

/-- What one pass of the truncator produces on `dA`. -/
def dA1 : List (List Char × AttrVal) :=
  [(bigKey, AttrVal.boolean true), ([Char.ofNat 101], AttrVal.str (euroStr ++ suffixChars))]

/-- What two passes of the truncator produce on `dA`. -/
def dA2 : List (List Char × AttrVal) :=
  [(bigKey, AttrVal.boolean true), ([Char.ofNat 101], AttrVal.str ((euroStr ++ suffixChars) ++ suffixChars))]

/-- Modelled from the spec (a refinement reading of claim C2, not of the
code): "the first (per_attribute_limit_bytes − 100) bytes of the string":
characters are taken while they fit in the remaining byte budget.  At the
input used below the byte boundary falls exactly between characters, so
the spec's allowance for cutting a multi-byte sequence does not arise. -/
def specBytesTake : Nat → List Char → List Char
  | _, [] => []
  | n, c :: cs => if utf8CharSize c ≤ n then c :: specBytesTake (n - utf8CharSize c) cs else []

/-- Whether every character of a string is a single-byte (ASCII) one. -/
def asciiStr (s : List Char) : Bool :=
  s.all (fun c => utf8CharSize c == 1)

/-- Whether an attribute value is a non-string or an all-ASCII string. -/
def asciiVal : AttrVal → Bool
  | AttrVal.str s => asciiStr s
  | _ => true

/-- Whether every string value of the mapping is all-ASCII. -/
def asciiAttrs (attrs : List (List Char × AttrVal)) : Bool :=
  attrs.all (fun kv => asciiVal kv.2)

/-- Erases the two echoed fields of a success record, keeping status,
insights, methodology and knowledge-currency note. -/
def forgetEcho : ResearchResult → ResearchResult
  | ResearchResult.success r => ResearchResult.success { r with topic := "", focus_area := "" }
  | e => e

/-- Whether a research result is success-tagged. -/
def isSuccessR : ResearchResult → Bool
  | ResearchResult.success _ => true
  | ResearchResult.error _ => false

/-- The insights of a success record (the error message otherwise). -/
def insightsOf : ResearchResult → String
  | ResearchResult.success r => r.insights
  | ResearchResult.error m => m

/-- A tiny all-ASCII attributes mapping, used as a witness input. -/
def dSmall : List (List Char × AttrVal) :=
  [([Char.ofNat 97], AttrVal.str [Char.ofNat 98]), ([Char.ofNat 99], AttrVal.num 7)]

/-- A 10001-byte ASCII string: over the per-attribute threshold. -/
def bLong : List Char := List.replicate 10001 (Char.ofNat 98)

/-- A mapping whose only string value is 10001 bytes long (over the
per-attribute threshold) while the whole mapping stays far under
`max_size`: a witness that the below-threshold identity keeps long
strings intact. -/
def dLongStr : List (List Char × AttrVal) :=
  [([Char.ofNat 97], AttrVal.str bLong)]

/-- A small span dictionary with an `"attributes"` entry and one other
entry, used as a witness input for the frame property. -/
def sdSmall : List (List Char × SpanVal) :=
  [(attrsKey, SpanVal.attrsVal dSmall), ([Char.ofNat 120], SpanVal.primVal (AttrVal.boolean true))]

/- ------------------------------------------------------------------
Helper lemmas and concrete inputs
------------------------------------------------------------------ -/

theorem sumMap_replicate (f : Char → Nat) (n : Nat) (c : Char) :
    ((List.replicate n c).map f).sum = n * f c := by
  induction n with
  | zero => simp
  | succ m ih =>
      simp only [List.replicate_succ, List.map_cons, List.sum_cons, ih]
      ring

theorem pyEncodeLen_append (a b : List Char) :
    pyEncodeLen (a ++ b) = pyEncodeLen a + pyEncodeLen b := by
  simp [pyEncodeLen]

theorem escSum_append (a b : List Char) :
    escSum (a ++ b) = escSum a + escSum b := by
  simp [escSum]

theorem jsonStrSize_replicate (n : Nat) (c : Char) :
    jsonStrSize (List.replicate n c) = 2 + n * jsonEscLen c := by
  rw [jsonStrSize, escSum, sumMap_replicate]

theorem utf8CharSize_euro : utf8CharSize euro = 3 := by decide

theorem jsonEscLen_euro : jsonEscLen euro = 6 := by decide

theorem pyEncodeLen_suffixChars : pyEncodeLen suffixChars = 15 := by decide

theorem escSum_suffixChars : escSum suffixChars = 15 := by decide

theorem length_suffixChars : suffixChars.length = 15 := by decide

theorem pyEncodeLen_euroStr : pyEncodeLen euroStr = 12000 := by
  rw [euroStr, pyEncodeLen, sumMap_replicate, utf8CharSize_euro]

theorem length_euroStr : euroStr.length = 4000 := by
  rw [euroStr, List.length_replicate]

theorem jsonStrSize_bigKey : jsonStrSize bigKey = 210002 := by
  have hk : jsonEscLen (Char.ofNat 107) = 1 := by decide
  rw [bigKey, jsonStrSize_replicate, hk]

theorem jsonStrSize_euroStr : jsonStrSize euroStr = 24002 := by
  rw [euroStr, jsonStrSize_replicate, jsonEscLen_euro]

theorem jsonStrSize_euroSuffix : jsonStrSize (euroStr ++ suffixChars) = 24017 := by
  have h : escSum euroStr = 24000 := by
    have := jsonStrSize_euroStr
    rw [jsonStrSize] at this
    omega
  rw [jsonStrSize, escSum_append, h, escSum_suffixChars]

theorem jsonAttrsSize_cons (kv : List Char × AttrVal) (rest : List (List Char × AttrVal)) :
    jsonAttrsSize (kv :: rest) = 2 + entrySize kv + (rest.map (fun e => 2 + entrySize e)).sum := rfl

theorem entrySize_mk (k : List Char) (v : AttrVal) :
    entrySize (k, v) = jsonStrSize k + 2 + jsonValSize v := rfl

theorem jsonAttrsSize_dA : jsonAttrsSize dA = 234019 := by
  have he : jsonStrSize [Char.ofNat 101] = 3 := by decide
  show jsonAttrsSize ((bigKey, AttrVal.boolean true) :: ([Char.ofNat 101], AttrVal.str euroStr) :: []) = 234019
  rw [jsonAttrsSize_cons, List.map_cons, List.map_nil, entrySize_mk, entrySize_mk]
  rw [jsonStrSize_bigKey, he]
  rw [show jsonValSize (AttrVal.str euroStr) = jsonStrSize euroStr from rfl, jsonStrSize_euroStr]
  rw [show jsonValSize (AttrVal.boolean true) = 4 from rfl]
  norm_num

theorem jsonAttrsSize_dA1 : jsonAttrsSize dA1 = 234034 := by
  have he : jsonStrSize [Char.ofNat 101] = 3 := by decide
  show jsonAttrsSize ((bigKey, AttrVal.boolean true) ::
      ([Char.ofNat 101], AttrVal.str (euroStr ++ suffixChars)) :: []) = 234034
  rw [jsonAttrsSize_cons, List.map_cons, List.map_nil, entrySize_mk, entrySize_mk]
  rw [jsonStrSize_bigKey, he]
  rw [show jsonValSize (AttrVal.str (euroStr ++ suffixChars)) = jsonStrSize (euroStr ++ suffixChars) from rfl,
    jsonStrSize_euroSuffix]
  rw [show jsonValSize (AttrVal.boolean true) = 4 from rfl]
  norm_num

theorem jsonAttrsSize_dA_gt : jsonAttrsSize dA > max_size := by
  rw [jsonAttrsSize_dA, max_size]
  norm_num

theorem jsonAttrsSize_dA1_gt : jsonAttrsSize dA1 > max_size := by
  rw [jsonAttrsSize_dA1, max_size]
  norm_num

theorem truncOne_euroStr :
    truncOne (AttrVal.str euroStr) = AttrVal.str (euroStr ++ suffixChars) := by
  have hgt : pyEncodeLen euroStr > 10000 := by
    rw [pyEncodeLen_euroStr]; norm_num
  have htake : euroStr.take 9900 = euroStr :=
    List.take_of_length_le (by rw [length_euroStr]; norm_num)
  simp only [truncOne, if_pos hgt, htake]

theorem truncOne_euroSuffix :
    truncOne (AttrVal.str (euroStr ++ suffixChars)) =
      AttrVal.str ((euroStr ++ suffixChars) ++ suffixChars) := by
  have hgt : pyEncodeLen (euroStr ++ suffixChars) > 10000 := by
    rw [pyEncodeLen_append, pyEncodeLen_euroStr, pyEncodeLen_suffixChars]; norm_num
  have htake : (euroStr ++ suffixChars).take 9900 = euroStr ++ suffixChars :=
    List.take_of_length_le (by
      rw [List.length_append, length_euroStr, length_suffixChars]; norm_num)
  simp only [truncOne, if_pos hgt, htake]

theorem processAttributes_dA : processAttributes dA = dA1 := by
  rw [processAttributes, if_pos jsonAttrsSize_dA_gt]
  show (bigKey, truncOne (AttrVal.boolean true)) ::
      ([Char.ofNat 101], truncOne (AttrVal.str euroStr)) :: [] = dA1
  rw [truncOne_euroStr]
  rfl

theorem processAttributes_dA1 : processAttributes dA1 = dA2 := by
  rw [processAttributes, if_pos jsonAttrsSize_dA1_gt]
  show (bigKey, truncOne (AttrVal.boolean true)) ::
      ([Char.ofNat 101], truncOne (AttrVal.str (euroStr ++ suffixChars))) :: [] = dA2
  rw [truncOne_euroSuffix]
  rfl

theorem pyEncodeLen_cons (c : Char) (l : List Char) :
    pyEncodeLen (c :: l) = utf8CharSize c + pyEncodeLen l := by
  simp [pyEncodeLen]

theorem pyEncodeLen_specBytesTake_le (s : List Char) : ∀ n, pyEncodeLen (specBytesTake n s) ≤ n := by
  induction s with
  | nil => intro n; simp [specBytesTake, pyEncodeLen]
  | cons c cs ih =>
      intro n
      rw [specBytesTake]
      split
      · rw [pyEncodeLen_cons]
        have := ih (n - utf8CharSize c)
        omega
      · simp [pyEncodeLen]

/- ------------------------------------------------------------------
Claims C1 to C4: the truncator on the oversized mapping dA
------------------------------------------------------------------ -/

/-- C1, counterexample: the truncation transform is not idempotent.  On
the mapping `dA` — a 210000-character key under a boolean, plus a
4000-character euro-sign string of 12000 UTF-8 bytes — the first pass
appends the suffix without dropping any character (4000 ≤ 9900), the
result is still over both limits, and the second pass appends the
suffix again. -/
theorem C1_counterexample :
    processAttributes (processAttributes dA) ≠ processAttributes dA := by
  rw [processAttributes_dA, processAttributes_dA1]
  intro h
  simp only [dA2, dA1, List.cons.injEq, Prod.mk.injEq, AttrVal.str.injEq, and_true, true_and] at h
  have hl := congrArg List.length h
  simp only [List.length_append, length_euroStr, length_suffixChars] at hl
  omega

/-- C2, counterexample: the replacement is not "the first 9900 bytes"
of the string.  On `dA` the euro-sign string is 12000 bytes long, the
mapping is over the total limit, yet the truncator's output is not the
9900-byte prefix plus suffix (it is the whole 4000-character string
plus suffix, because Python slices characters). -/
theorem C2_counterexample :
    jsonAttrsSize dA > max_size ∧ pyEncodeLen euroStr > 10000 ∧
    processAttributes dA ≠
      [(bigKey, AttrVal.boolean true),
       ([Char.ofNat 101], AttrVal.str (specBytesTake 9900 euroStr ++ suffixChars))] := by
  refine ⟨jsonAttrsSize_dA_gt, by rw [pyEncodeLen_euroStr]; norm_num, ?_⟩
  rw [processAttributes_dA]
  intro h
  simp only [dA1, List.cons.injEq, Prod.mk.injEq, AttrVal.str.injEq, and_true, true_and] at h
  have h2 : euroStr = specBytesTake 9900 euroStr := List.append_cancel_right h
  have h3 := pyEncodeLen_specBytesTake_le euroStr 9900
  rw [← h2, pyEncodeLen_euroStr] at h3
  omega

/-- C3, counterexample: a replaced string can exceed the 10000-byte
per-attribute limit.  On `dA` the truncator replaces the euro-sign
string with `euroStr ++ "... [truncated]"`, which is 12015 UTF-8 bytes
(24017 bytes once json-serialized). -/
theorem C3_counterexample :
    jsonAttrsSize dA > max_size ∧
    processAttributes dA =
      [(bigKey, AttrVal.boolean true),
       ([Char.ofNat 101], AttrVal.str (euroStr ++ suffixChars))] ∧
    pyEncodeLen (euroStr ++ suffixChars) > 10000 ∧
    jsonStrSize (euroStr ++ suffixChars) > 10000 := by
  refine ⟨jsonAttrsSize_dA_gt, processAttributes_dA.trans rfl, ?_, ?_⟩
  · rw [pyEncodeLen_append, pyEncodeLen_euroStr, pyEncodeLen_suffixChars]
    norm_num
  · rw [jsonStrSize_euroSuffix]
    norm_num

/-- C4, counterexample: one application of the truncator can increase
the serialized size of the mapping: on `dA` it goes from 234019 to
234034 bytes, because the suffix is appended to a string that loses no
characters to the 9900-character slice. -/
theorem C4_counterexample :
    ¬ jsonAttrsSize (processAttributes dA) ≤ jsonAttrsSize dA := by
  rw [processAttributes_dA, jsonAttrsSize_dA1, jsonAttrsSize_dA]
  norm_num

/- ------------------------------------------------------------------
ASCII lemmas for the amended truncator claims
------------------------------------------------------------------ -/

theorem one_le_jsonEscLen (c : Char) : 1 ≤ jsonEscLen c := by
  rw [jsonEscLen]
  repeat' split
  all_goals norm_num

theorem escSum_cons (c : Char) (l : List Char) : escSum (c :: l) = jsonEscLen c + escSum l := by
  simp [escSum]

theorem length_le_escSum (s : List Char) : s.length ≤ escSum s := by
  induction s with
  | nil => simp [escSum]
  | cons c l ih =>
      rw [escSum_cons, List.length_cons]
      have := one_le_jsonEscLen c
      omega

theorem asciiStr_encode (s : List Char) (h : asciiStr s = true) : pyEncodeLen s = s.length := by
  induction s with
  | nil => rfl
  | cons c l ih =>
      rw [asciiStr, List.all_cons, Bool.and_eq_true, beq_iff_eq] at h
      rw [pyEncodeLen_cons, List.length_cons, h.1, ih h.2]
      omega

theorem asciiStr_take (s : List Char) (n : Nat) (h : asciiStr s = true) :
    asciiStr (s.take n) = true := by
  rw [asciiStr, List.all_eq_true] at h ⊢
  intro c hc
  exact h c (List.take_subset n s hc)

theorem encode_trunc_le (s : List Char) (h : asciiStr s = true) :
    pyEncodeLen (s.take 9900 ++ suffixChars) ≤ 10000 := by
  rw [pyEncodeLen_append, asciiStr_encode _ (asciiStr_take s 9900 h), pyEncodeLen_suffixChars]
  have h1 : (s.take 9900).length ≤ 9900 := by
    rw [List.length_take]
    omega
  omega

theorem truncOne_trunc (v : AttrVal) (hv : asciiVal v = true) :
    truncOne (truncOne v) = truncOne v := by
  cases v with
  | str s =>
      rw [asciiVal] at hv
      by_cases hc : pyEncodeLen s > 10000
      · have e1 : truncOne (AttrVal.str s) = AttrVal.str (s.take 9900 ++ suffixChars) := by
          simp only [truncOne, if_pos hc]
        rw [e1]
        have h2 := encode_trunc_le s hv
        simp only [truncOne, if_neg (by omega : ¬ pyEncodeLen (s.take 9900 ++ suffixChars) > 10000)]
      · simp only [truncOne, if_neg hc]
  | num n => rfl
  | boolean b => rfl

theorem asciiAttrs_cons (kv : List Char × AttrVal) (rest : List (List Char × AttrVal)) :
    asciiAttrs (kv :: rest) = (asciiVal kv.2 && asciiAttrs rest) := by
  simp [asciiAttrs]

theorem truncateLoop_idem (attrs : List (List Char × AttrVal)) (h : asciiAttrs attrs = true) :
    truncateLoop (truncateLoop attrs) = truncateLoop attrs := by
  induction attrs with
  | nil => rfl
  | cons kv rest ih =>
      obtain ⟨k, v⟩ := kv
      rw [asciiAttrs_cons, Bool.and_eq_true] at h
      rw [truncateLoop, truncateLoop, truncOne_trunc v h.1, ih h.2]

/- ------------------------------------------------------------------
Size monotonicity lemmas for the amended C4
------------------------------------------------------------------ -/

theorem jsonValSize_truncOne_le (v : AttrVal) (hv : asciiVal v = true) :
    jsonValSize (truncOne v) ≤ jsonValSize v := by
  cases v with
  | str s =>
      rw [asciiVal] at hv
      by_cases hc : pyEncodeLen s > 10000
      · simp only [truncOne, if_pos hc, jsonValSize, jsonStrSize, escSum_append, escSum_suffixChars]
        have hsplit : escSum s = escSum (s.take 9900) + escSum (s.drop 9900) := by
          conv_lhs => rw [← List.take_append_drop 9900 s]
          rw [escSum_append]
        have hdrop := length_le_escSum (s.drop 9900)
        have hdl : (s.drop 9900).length = s.length - 9900 := List.length_drop 9900 s
        have hlen : pyEncodeLen s = s.length := asciiStr_encode s hv
        omega
      · simp only [truncOne, if_neg hc]
        exact le_refl _
  | num n => exact le_refl _
  | boolean b => exact le_refl _

theorem tailSum_truncateLoop_le (l : List (List Char × AttrVal))
    (h : ∀ kv ∈ l, asciiVal kv.2 = true) :
    ((truncateLoop l).map (fun e => 2 + entrySize e)).sum ≤
      (l.map (fun e => 2 + entrySize e)).sum := by
  induction l with
  | nil => exact le_refl _
  | cons kv rest ih =>
      obtain ⟨k, v⟩ := kv
      rw [truncateLoop, List.map_cons, List.map_cons, List.sum_cons, List.sum_cons]
      have h1 : entrySize (k, truncOne v) ≤ entrySize (k, v) := by
        rw [entrySize_mk, entrySize_mk]
        have := jsonValSize_truncOne_le v (h (k, v) (List.mem_cons_self _ _))
        omega
      have h2 := ih (fun kv hm => h kv (List.mem_cons_of_mem _ hm))
      omega

theorem jsonAttrsSize_truncateLoop_le (attrs : List (List Char × AttrVal))
    (h : asciiAttrs attrs = true) :
    jsonAttrsSize (truncateLoop attrs) ≤ jsonAttrsSize attrs := by
  have h' : ∀ kv ∈ attrs, asciiVal kv.2 = true := by
    rw [asciiAttrs, List.all_eq_true] at h
    exact h
  cases attrs with
  | nil => exact le_refl _
  | cons kv rest =>
      obtain ⟨k, v⟩ := kv
      rw [truncateLoop, jsonAttrsSize_cons, jsonAttrsSize_cons]
      have h1 : entrySize (k, truncOne v) ≤ entrySize (k, v) := by
        rw [entrySize_mk, entrySize_mk]
        have := jsonValSize_truncOne_le v (h' (k, v) (List.mem_cons_self _ _))
        omega
      have h2 := tailSum_truncateLoop_le rest (fun kv hm => h' kv (List.mem_cons_of_mem _ hm))
      omega

/- ------------------------------------------------------------------
Claims C1 to C5: theorems
------------------------------------------------------------------ -/

/-- C1, amended: the truncation transform is idempotent on every
attributes mapping whose string values consist of single-byte (ASCII)
characters.  (The original claim fails for multi-byte strings, see the
counterexample: Python slices characters, so a string over the byte
threshold but at or under 9900 characters only grows by the suffix.) -/
theorem C1_amended (attrs : List (List Char × AttrVal)) (h : asciiAttrs attrs = true) :
    processAttributes (processAttributes attrs) = processAttributes attrs := by
  by_cases h1 : jsonAttrsSize attrs > max_size
  · have hx : processAttributes attrs = truncateLoop attrs := by
      rw [processAttributes, if_pos h1]
    rw [hx]
    by_cases h2 : jsonAttrsSize (truncateLoop attrs) > max_size
    · rw [processAttributes, if_pos h2]
      exact truncateLoop_idem attrs h
    · rw [processAttributes, if_neg h2]
  · have hx : processAttributes attrs = attrs := by
      rw [processAttributes, if_neg h1]
    rw [hx, hx]

/-- Witness for C1_amended at the concrete mapping dSmall. -/
theorem C1_witness :
    asciiAttrs dSmall = true ∧
    processAttributes (processAttributes dSmall) = processAttributes dSmall :=
  ⟨by decide, C1_amended dSmall (by decide)⟩

/-- C2, amended: when the serialized mapping exceeds the total limit,
every string value over 10000 UTF-8 bytes is replaced by its first 9900
characters (not bytes) followed by "... [truncated]", and every other
value passes through unchanged. -/
theorem C2_amended (attrs : List (List Char × AttrVal)) (h : jsonAttrsSize attrs > max_size) :
    processAttributes attrs = attrs.map (fun kv => (kv.1,
      match kv.2 with
      | AttrVal.str s =>
          if pyEncodeLen s > 10000 then AttrVal.str (s.take 9900 ++ suffixChars)
          else AttrVal.str s
      | v => v)) := by
  rw [processAttributes, if_pos h]
  clear h
  induction attrs with
  | nil => rfl
  | cons kv rest ih =>
      obtain ⟨k, v⟩ := kv
      rw [truncateLoop, List.map_cons, ih]
      cases v <;> rfl

/-- Witness for C2_amended at the concrete oversized mapping dA. -/
theorem C2_witness :
    jsonAttrsSize dA > max_size ∧
    processAttributes dA = dA.map (fun kv => (kv.1,
      match kv.2 with
      | AttrVal.str s =>
          if pyEncodeLen s > 10000 then AttrVal.str (s.take 9900 ++ suffixChars)
          else AttrVal.str s
      | v => v)) :=
  ⟨jsonAttrsSize_dA_gt, C2_amended dA jsonAttrsSize_dA_gt⟩

/-- C3, amended: for every all-ASCII string value over the 10000-byte
per-attribute threshold, the replacement (9900-character prefix plus
suffix) is at most 10000 UTF-8 bytes.  (The unrestricted claim fails
for multi-byte strings, see the counterexample.) -/
theorem C3_amended (s : List Char) (h1 : asciiStr s = true) (h2 : pyEncodeLen s > 10000) :
    truncOne (AttrVal.str s) = AttrVal.str (s.take 9900 ++ suffixChars) ∧
    pyEncodeLen (s.take 9900 ++ suffixChars) ≤ 10000 :=
  ⟨by simp only [truncOne, if_pos h2], encode_trunc_le s h1⟩

/-- Witness for C3_amended at the 10001-byte ASCII string bLong. -/
theorem C3_witness :
    asciiStr bLong = true ∧ pyEncodeLen bLong > 10000 ∧
    (truncOne (AttrVal.str bLong) = AttrVal.str (bLong.take 9900 ++ suffixChars) ∧
     pyEncodeLen (bLong.take 9900 ++ suffixChars) ≤ 10000) := by
  have ha : asciiStr bLong = true := by
    rw [bLong, asciiStr, List.all_eq_true]
    intro c hc
    rw [List.eq_of_mem_replicate hc]
    decide
  have hb : pyEncodeLen bLong > 10000 := by
    rw [bLong, pyEncodeLen, sumMap_replicate]
    decide
  exact ⟨ha, hb, C3_amended bLong ha hb⟩

/-- C4, amended: one application of the truncator never increases the
serialized size of a mapping whose string values are all-ASCII.  (The
unrestricted claim fails for multi-byte strings, see the
counterexample.) -/
theorem C4_amended (attrs : List (List Char × AttrVal)) (h : asciiAttrs attrs = true) :
    jsonAttrsSize (processAttributes attrs) ≤ jsonAttrsSize attrs := by
  rw [processAttributes]
  split
  · exact jsonAttrsSize_truncateLoop_le attrs h
  · exact le_refl _

/-- Witness for C4_amended at the concrete mapping dSmall. -/
theorem C4_witness :
    asciiAttrs dSmall = true ∧
    jsonAttrsSize (processAttributes dSmall) ≤ jsonAttrsSize dSmall :=
  ⟨by decide, C4_amended dSmall (by decide)⟩

/-- C5, confirmed: when the serialized mapping is at or under the total
limit, the truncator is the identity, whatever the individual values
are. -/
theorem C5_identity (attrs : List (List Char × AttrVal)) (h : jsonAttrsSize attrs ≤ max_size) :
    processAttributes attrs = attrs := by
  rw [processAttributes, if_neg (by omega)]

theorem jsonAttrsSize_dLongStr : jsonAttrsSize dLongStr = 10010 := by
  have hb : jsonStrSize bLong = 10003 := by
    rw [bLong, jsonStrSize_replicate]
    decide
  have ha : jsonStrSize [Char.ofNat 97] = 3 := by decide
  show jsonAttrsSize (([Char.ofNat 97], AttrVal.str bLong) :: []) = 10010
  rw [jsonAttrsSize_cons, List.map_nil, entrySize_mk, ha]
  rw [show jsonValSize (AttrVal.str bLong) = jsonStrSize bLong from rfl, hb]
  simp

/-- Witness for C5_identity at dLongStr, whose only string value is
10001 bytes long — over the per-attribute threshold — yet is returned
intact because the whole mapping is under the total limit. -/
theorem C5_witness :
    jsonAttrsSize dLongStr ≤ max_size ∧ pyEncodeLen bLong > 10000 ∧
    processAttributes dLongStr = dLongStr := by
  have h1 : jsonAttrsSize dLongStr ≤ max_size := by
    rw [jsonAttrsSize_dLongStr, max_size]
    norm_num
  have h2 : pyEncodeLen bLong > 10000 := by
    rw [bLong, pyEncodeLen, sumMap_replicate]
    decide
  exact ⟨h1, h2, C5_identity dLongStr h1⟩

/- ------------------------------------------------------------------
Claim C9: the span transform touches only the attributes entry
------------------------------------------------------------------ -/

theorem dictGet_mapSet_ne (d : List (List Char × SpanVal)) (key k : List Char) (v : SpanVal)
    (hne : k ≠ key) :
    dictGet (d.map (fun kv => if kv.1 = key then (key, v) else kv)) k = dictGet d k := by
  induction d with
  | nil => rfl
  | cons kv rest ih =>
      obtain ⟨k1, v1⟩ := kv
      rw [List.map_cons]
      by_cases h1 : k1 = key
      · simp only [h1, if_pos rfl]
        rw [dictGet, dictGet, if_neg hne, if_neg (h1 ▸ hne), ih]
      · simp only [if_neg (by simpa using h1)]
        rw [dictGet, dictGet]
        by_cases h2 : k = k1
        · rw [if_pos h2, if_pos h2]
        · rw [if_neg h2, if_neg h2, ih]

theorem dictGet_append_single_ne (d : List (List Char × SpanVal)) (key k : List Char) (v : SpanVal)
    (hne : k ≠ key) :
    dictGet (d ++ [(key, v)]) k = dictGet d k := by
  induction d with
  | nil => simp [dictGet, hne]
  | cons kv rest ih =>
      obtain ⟨k1, v1⟩ := kv
      rw [List.cons_append, dictGet, dictGet]
      by_cases h2 : k = k1
      · rw [if_pos h2, if_pos h2]
      · rw [if_neg h2, if_neg h2, ih]

theorem dictGet_dictSet_ne (d : List (List Char × SpanVal)) (key k : List Char) (v : SpanVal)
    (hne : k ≠ key) : dictGet (dictSet d key v) k = dictGet d k := by
  rw [dictSet]
  split
  · exact dictGet_mapSet_ne d key k v hne
  · exact dictGet_append_single_ne d key k v hne

/-- C9, confirmed: `_process_large_attributes` reads and possibly
rewrites only the `"attributes"` entry of the span dictionary: whenever
the input has an attributes mapping and the transform returns a
dictionary, every other key maps to the same value as before. -/
theorem C9_frame (sd sd2 : List (List Char × SpanVal)) (a : List (List Char × AttrVal))
    (k : List Char)
    (h1 : dictGet sd attrsKey = some (SpanVal.attrsVal a))
    (h2 : processSpan sd = some sd2)
    (h3 : k ≠ attrsKey) :
    dictGet sd2 k = dictGet sd k := by
  simp only [processSpan, h1] at h2
  split at h2
  · rw [Option.some.injEq] at h2
    rw [← h2]
    exact dictGet_dictSet_ne sd attrsKey k (SpanVal.attrsVal (truncateLoop a)) h3
  · rw [Option.some.injEq] at h2
    rw [← h2]

/-- Witness for C9_frame at the concrete span dictionary sdSmall. -/
theorem C9_witness :
    dictGet sdSmall attrsKey = some (SpanVal.attrsVal dSmall) ∧
    processSpan sdSmall = some sdSmall ∧
    dictGet sdSmall [Char.ofNat 120] = dictGet sdSmall [Char.ofNat 120] :=
  ⟨by decide, by decide,
   C9_frame sdSmall sdSmall dSmall [Char.ofNat 120] (by decide) (by decide) (by decide)⟩

/- ------------------------------------------------------------------
Claims C6 to C8 and C10: the research agent tools
------------------------------------------------------------------ -/

theorem lookupTable_mem {α : Type} (l : List (String × α)) (k : String) (v : α)
    (h : lookupTable l k = some v) : v ∈ l.map Prod.snd := by
  induction l with
  | nil => simp [lookupTable] at h
  | cons kv rest ih =>
      obtain ⟨k1, v1⟩ := kv
      rw [lookupTable] at h
      by_cases hc : k = k1
      · rw [if_pos hc] at h
        rw [Option.some.injEq] at h
        simp [h]
      · rw [if_neg hc] at h
        simp [ih h]

theorem kb_general (t : String) (td : List (String × String))
    (h : lookupTable knowledge_base t = some td) :
    (lookupTable td "general").isSome = true := by
  rw [knowledge_base, lookupTable] at h
  by_cases h1 : t = "artificial intelligence"
  · rw [if_pos h1, Option.some.injEq] at h
    rw [← h]
    decide
  · rw [if_neg h1, lookupTable] at h
    by_cases h2 : t = "climate change"
    · rw [if_pos h2, Option.some.injEq] at h
      rw [← h]
      decide
    · rw [if_neg h2, lookupTable] at h
      by_cases h3 : t = "blockchain"
      · rw [if_pos h3, Option.some.injEq] at h
        rw [← h]
        decide
      · rw [if_neg h3, lookupTable] at h
        exact absurd h (by simp)

theorem research_topic_fallback (T F : String) (td : List (String × String))
    (h1 : lookupTable knowledge_base (pyNormalize T) = some td)
    (h2 : lookupTable td (pyNormalize F) = none) :
    research_topic T F = ResearchResult.success
      { topic := T, focus_area := F,
        insights := (lookupTable td "general").getD "Limited information available for this focus area.",
        methodology := "Analysis based on existing knowledge base",
        last_updated := "Knowledge current as of training data" } := by
  simp only [research_topic, h1, h2]

theorem research_topic_found (T F : String) (td : List (String × String)) (c : String)
    (h1 : lookupTable knowledge_base (pyNormalize T) = some td)
    (h2 : lookupTable td (pyNormalize F) = some c) :
    research_topic T F = ResearchResult.success
      { topic := T, focus_area := F,
        insights := c,
        methodology := "Analysis based on existing knowledge base",
        last_updated := "Knowledge current as of training data" } := by
  simp only [research_topic, h1, h2]

/-- C6, counterexample: the two calls the spec requires to be equal are
not: the success record echoes the original topic and focus_area
strings, which differ between the two calls. -/
theorem C6_counterexample :
    research_topic " Blockchain " "TECHNICAL" ≠ research_topic "blockchain" "technical" := by
  decide

/-- C6, amended: the two calls agree on everything except the two
echoed fields: erasing topic and focus_area from the success records
makes them equal (same status, same insights, same fixed notes). -/
theorem C6_amended :
    forgetEcho (research_topic " Blockchain " "TECHNICAL") =
      forgetEcho (research_topic "blockchain" "technical") := by
  decide

/-- C7, confirmed: for a known topic and a focus area whose normalized
form is not a sub-key of the topic entry, research_topic returns a
success record whose insights field is the topic's "general" entry
(which is always present). -/
theorem C7_unknown_focus (T F : String) (td : List (String × String))
    (h1 : lookupTable knowledge_base (pyNormalize T) = some td)
    (h2 : lookupTable td (pyNormalize F) = none) :
    (lookupTable td "general").isSome = true ∧
    research_topic T F = ResearchResult.success
      { topic := T, focus_area := F,
        insights := (lookupTable td "general").getD "Limited information available for this focus area.",
        methodology := "Analysis based on existing knowledge base",
        last_updated := "Knowledge current as of training data" } :=
  ⟨kb_general (pyNormalize T) td h1, research_topic_fallback T F td h1 h2⟩

/-- Witness for C7_unknown_focus: topic "blockchain" with the unknown
focus area "history" falls back to the blockchain "general" entry. -/
theorem C7_witness :
    (lookupTable blockchain_data "general").isSome = true ∧
    research_topic "blockchain" "history" = ResearchResult.success
      { topic := "blockchain", focus_area := "history",
        insights := (lookupTable blockchain_data "general").getD "Limited information available for this focus area.",
        methodology := "Analysis based on existing knowledge base",
        last_updated := "Knowledge current as of training data" } :=
  C7_unknown_focus "blockchain" "history" blockchain_data (by decide) (by decide)

/-- C8, confirmed: analyze_trends on "unknown_domain" returns exactly
the error record of the claim, and in general every domain whose
normalized form is not a key of the trend table yields an error record
whose message names the three known domains. -/
theorem C8_unknown_domain :
    analyze_trends "unknown_domain" = TrendsResult.error
      ("Sorry, trend analysis not available for " ++ sq ++ "unknown_domain" ++ sq ++
       ". Available domains: technology, business, science.") ∧
    ∀ d : String, lookupTable trend_analysis (pyNormalize d) = none →
      analyze_trends d = TrendsResult.error (trendErrMsg d) := by
  constructor
  · decide
  · intro d h
    simp only [analyze_trends, h]

/-- Witness for the quantified part of C8_unknown_domain at the
concrete unknown domain "zzz". -/
theorem C8_witness :
    analyze_trends "zzz" = TrendsResult.error (trendErrMsg "zzz") :=
  (C8_unknown_domain).2 "zzz" (by decide)

/-- C10, confirmed: every topic entry of the knowledge base has a
"general" sub-key, so for a known topic research_topic always succeeds
and its insights always come from the topic's own table, for every
focus-area string: the "Limited information" default is unreachable. -/
theorem C10_general_fallback (T F : String) (td : List (String × String))
    (h1 : lookupTable knowledge_base (pyNormalize T) = some td) :
    (lookupTable td "general").isSome = true ∧
    isSuccessR (research_topic T F) = true ∧
    insightsOf (research_topic T F) ∈ td.map Prod.snd := by
  refine ⟨kb_general (pyNormalize T) td h1, ?_⟩
  cases hf : lookupTable td (pyNormalize F) with
  | some c =>
      rw [research_topic_found T F td c h1 hf]
      exact ⟨rfl, lookupTable_mem td (pyNormalize F) c hf⟩
  | none =>
      rw [research_topic_fallback T F td h1 hf]
      refine ⟨rfl, ?_⟩
      have hs := kb_general (pyNormalize T) td h1
      rw [Option.isSome_iff_exists] at hs
      obtain ⟨g, hg⟩ := hs
      rw [show insightsOf (ResearchResult.success
        { topic := T, focus_area := F,
          insights := (lookupTable td "general").getD "Limited information available for this focus area.",
          methodology := "Analysis based on existing knowledge base",
          last_updated := "Knowledge current as of training data" }) =
        (lookupTable td "general").getD "Limited information available for this focus area." from rfl]
      rw [hg, Option.getD_some]
      exact lookupTable_mem td "general" g hg

/-- Witness for C10_general_fallback: topic "climate change" with the
unknown focus area "zzz". -/
theorem C10_witness :
    (lookupTable climate_data "general").isSome = true ∧
    isSuccessR (research_topic "climate change" "zzz") = true ∧
    insightsOf (research_topic "climate change" "zzz") ∈ climate_data.map Prod.snd :=
  C10_general_fallback "climate change" "zzz" climate_data (by decide)

end Demo
